import Mathlib

set_option maxHeartbeats 1000000

/-!
Verification of the update-processing queue and dual-backend storage layer.

The development shallowly embeds three modules:
* the volatile local store (class MemoryStorage),
* the remote store adapter (class SupabaseService),
* the storage facade (class StorageService) and the bounded update queue
  (class PriceQueue).

JavaScript objects are embedded as structures over a small value type that
records exactly what the code inspects: numbers, strings, booleans, null and
undefined.  Timestamps (Date.now and ISO strings, which the code only ever
compares) are embedded as integers in milliseconds.  Maps are embedded as
functions with pointwise update; asynchronous closures stored in the
synchronization queue are embedded as first-order descriptions of the write
they perform.
-/

/-- A JavaScript primitive value, as far as the storage layer inspects it. -/
inductive JSValue where
  | num (n : Int)
  | str (s : String)
  | boolean (b : Bool)
  | nullv
  | undef
deriving DecidableEq, Repr

namespace JSValue

/-- JS truthiness of the represented values: 0, the empty string, false,
null and undefined are falsy, everything else is truthy. -/
def truthy : JSValue → Bool
  | num n => decide (n ≠ 0)
  | str s => decide (s ≠ "")
  | boolean b => b
  | nullv => false
  | undef => false

/-- Embeds the check typeof v === number. -/
def isNumber : JSValue → Bool
  | num _ => true
  | _ => false

/-- Embeds the check typeof v === string. -/
def isString : JSValue → Bool
  | str _ => true
  | _ => false

end JSValue

/-- The token argument of saveTokenPrice: the fields the storage layer reads. -/
structure TokenData where
  address : JSValue
  poolAddress : JSValue
  ticker : JSValue
  name : JSValue
deriving DecidableEq, Repr

/-- The price argument of saveTokenPrice: the fields the storage layer reads. -/
structure PriceData where
  price : JSValue
  marketCap : JSValue
  liquidity : JSValue
  volume24h : JSValue
  dexId : JSValue
deriving DecidableEq, Repr

namespace MemoryStorage

/-- Value stored in this.prices by MemoryStorage.saveTokenPrice. -/
structure PriceEntry where
  token : TokenData
  price : PriceData
  updated_at : Int
deriving DecidableEq, Repr

/-- One entry of a per-pool history series. -/
structure HistEntry where
  price : JSValue
  updated_at : Int
deriving DecidableEq, Repr

/-- State of the MemoryStorage instance: the prices map, the history map
(absent key read as the empty list, matching get(key) or-else []), and the
config map. -/
structure MemState where
  prices : JSValue → Option PriceEntry
  history : JSValue → List HistEntry
  config : JSValue → Option JSValue

/-- Constructor state of MemoryStorage: empty maps except the two default
config entries. -/
def initMem : MemState where
  prices := fun _ => none
  history := fun _ => []
  config := fun k =>
    if k = JSValue.str ("sort_criteria") then some (JSValue.str ("mc"))
    else if k = JSValue.str ("update_interval") then some (JSValue.str ("30"))
    else none

/-- MemoryStorage.saveTokenPrice: store the record under token.poolAddress,
push the new history entry at the front, and truncate the series to 24
entries when it exceeds 24. -/
def saveTokenPrice (now : Int) (token : TokenData) (price : PriceData)
    (st : MemState) : MemState :=
  let key := token.poolAddress
  let entry : PriceEntry := { token := token, price := price, updated_at := now }
  let hist0 := ({ price := price.price, updated_at := now } : HistEntry) :: st.history key
  let hist := if hist0.length > 24 then hist0.take 24 else hist0
  { st with
    prices := fun k => if k = key then some entry else st.prices k
    history := fun k => if k = key then hist else st.history k }

/-- MemoryStorage.getTokenPrice: a record older than 30 seconds is reported
as absent (null); otherwise the stored price object is returned. -/
def getTokenPrice (now : Int) (poolAddress : JSValue) (st : MemState) :
    Option PriceData :=
  match st.prices poolAddress with
  | none => none
  | some d => if d.updated_at < now - 30 * 1000 then none else some d.price

/-- MemoryStorage.getPriceHistory: the stored series (empty when absent). -/
def getPriceHistory (poolAddress : JSValue) (st : MemState) : List HistEntry :=
  st.history poolAddress

/-- MemoryStorage.clearHistory: delete the series for the pool. -/
def clearHistory (poolAddress : JSValue) (st : MemState) : MemState :=
  { st with history := fun k => if k = poolAddress then [] else st.history k }

/-- MemoryStorage.updateConfig: set the key in the config map. -/
def updateConfig (key value : JSValue) (st : MemState) : MemState :=
  { st with config := fun k => if k = key then some value else st.config k }

/-- MemoryStorage.getConfig. -/
def getConfig (key : JSValue) (st : MemState) : Option JSValue :=
  st.config key

end MemoryStorage

namespace SupabaseService

/-- A row of the token_prices table, as written by the upsert in
SupabaseService.saveTokenPrice. -/
structure RemoteRow where
  token_address : JSValue
  pool_address : JSValue
  ticker : JSValue
  name : JSValue
  price : JSValue
  market_cap : JSValue
  liquidity : JSValue
  volume_24h : JSValue
  dex_id : JSValue
  updated_at : Int
deriving DecidableEq, Repr

/-- State of the remote database: the latest token_prices row per
pool_address (the upsert keeps one row per pool, and getTokenPrice selects
the latest by updated_at) and the bot_config table. -/
structure RemoteState where
  token_prices : JSValue → Option RemoteRow
  bot_config : JSValue → Option JSValue

/-- The empty remote database. -/
def initRemote : RemoteState where
  token_prices := fun _ => none
  bot_config := fun _ => none

/-- SupabaseService.saveTokenPrice: upsert the row for the pool with the
current timestamp. -/
def saveTokenPrice (now : Int) (token : TokenData) (price : PriceData)
    (st : RemoteState) : RemoteState :=
  let row : RemoteRow :=
    { token_address := token.address
      pool_address := token.poolAddress
      ticker := token.ticker
      name := token.name
      price := price.price
      market_cap := price.marketCap
      liquidity := price.liquidity
      volume_24h := price.volume24h
      dex_id := price.dexId
      updated_at := now }
  { st with token_prices := fun k =>
      if k = token.poolAddress then some row else st.token_prices k }

/-- SupabaseService.getTokenPrice: read the latest row for the pool; if its
updated_at is older than 30 seconds the price is reported absent (null),
otherwise the selected columns are returned as a price object. -/
def getTokenPrice (now : Int) (poolAddress : JSValue) (st : RemoteState) :
    Option PriceData :=
  match st.token_prices poolAddress with
  | none => none
  | some row =>
    if row.updated_at < now - 30 * 1000 then none
    else some
      { price := row.price
        marketCap := row.market_cap
        liquidity := row.liquidity
        volume24h := row.volume_24h
        dexId := row.dex_id }

/-- SupabaseService.updateConfig: upsert the key into bot_config (the code
stores value.toString(); the stored value is embedded unchanged since the
claims only observe which store received the write). -/
def updateConfig (key value : JSValue) (st : RemoteState) : RemoteState :=
  { st with bot_config := fun k => if k = key then some value else st.bot_config k }

end SupabaseService

namespace PriceQueue

/-- Cumulative queue statistics. -/
structure QStats where
  processed : Nat
  failed : Nat
  retried : Nat
  timeouts : Nat
deriving DecidableEq, Repr

/-- A queue item as built by PriceQueue.add.  Item ids are generated from the
clock and a random suffix in the source; they are embedded as consecutive
naturals drawn from a counter in the state, preserving uniqueness and time
ordering. -/
structure QItem (α : Type) where
  id : Nat
  data : α
  addedAt : Int
  retries : Nat
  lastError : Option String
deriving DecidableEq, Repr

/-- A failure-log record: the spread of the terminal item plus the terminal
error message and the failure timestamp. -/
structure FailedRecord (α : Type) where
  item : QItem α
  finalError : String
  failedAt : Int
deriving DecidableEq, Repr

/-- State of a PriceQueue instance.  The payload type is a parameter, and so
is its validation (the source validateData only checks the payload is a
truthy object and leaves specific validations open).  The failure log
this.failedItems is a map keyed by item id. -/
structure QueueState (α : Type) where
  maxQueueSize : Nat
  processingTimeout : Int
  handlerTimeout : Int
  maxRetries : Nat
  processing : Bool
  queue : List (QItem α)
  failedItems : Nat → Option (FailedRecord α)
  stats : QStats
  nextId : Nat

/-- The options.x or-default pattern of the constructor: JS or-else takes the
default both when the option is absent and when it is 0 (falsy). -/
def orDefaultNat (o : Option Nat) (d : Nat) : Nat :=
  match o with
  | some n => if n = 0 then d else n
  | none => d

/-- Same or-default pattern for the timeout options. -/
def orDefaultInt (o : Option Int) (d : Int) : Int :=
  match o with
  | some n => if n = 0 then d else n
  | none => d

/-- The PriceQueue constructor. -/
def mkQueue (α : Type) (maxQueueSize : Option Nat) (processingTimeout : Option Int)
    (handlerTimeout : Option Int) (maxRetries : Option Nat) : QueueState α where
  maxQueueSize := orDefaultNat maxQueueSize 1000
  processingTimeout := orDefaultInt processingTimeout 30000
  handlerTimeout := orDefaultInt handlerTimeout 5000
  maxRetries := orDefaultNat maxRetries 3
  processing := false
  queue := []
  failedItems := fun _ => none
  stats := { processed := 0, failed := 0, retried := 0, timeouts := 0 }
  nextId := 0

/-- The module-level instance: new PriceQueue with maxQueueSize 1000,
processingTimeout 30000, handlerTimeout 5000, maxRetries 3. -/
def queueInstance (α : Type) : QueueState α :=
  mkQueue α (some 1000) (some 30000) (some 5000) (some 3)

/-- The two synchronous failures of PriceQueue.add. -/
inductive AddError where
  | queueFull
  | invalidData
deriving DecidableEq, Repr

/-- The admission and enqueue phase of PriceQueue.add: reject when the queue
already holds maxQueueSize items (before anything else), then validate the
payload, then push the new item at the tail.  An error is a thrown
exception, so the state is unchanged on failure.  The drain trigger that
follows the push in the source is processQueue below. -/
def addItem {α : Type} (valid : α → Bool) (now : Int) (data : α)
    (st : QueueState α) : Except AddError (QueueState α) :=
  if st.queue.length ≥ st.maxQueueSize then
    .error .queueFull
  else if ¬ valid data then
    .error .invalidData
  else
    .ok { st with
          queue := st.queue ++
            [{ id := st.nextId, data := data, addedAt := now,
               retries := 0, lastError := none }]
          nextId := st.nextId + 1 }

/-- PriceQueue.handleFailedItem: count the failure; below the retry budget,
increment retries, record the error and push the item back at the tail;
otherwise move it into the failure log with the terminal error and the
failure timestamp. -/
def handleFailedItem {α : Type} (now : Int) (item : QItem α) (errMsg : String)
    (st : QueueState α) : QueueState α :=
  let st1 := { st with stats := { st.stats with failed := st.stats.failed + 1 } }
  if item.retries < st1.maxRetries then
    { st1 with
      stats := { st1.stats with retried := st1.stats.retried + 1 }
      queue := st1.queue ++
        [{ item with retries := item.retries + 1, lastError := some errMsg }] }
  else
    { st1 with
      failedItems := fun i =>
        if i = item.id then
          some { item := item, finalError := errMsg, failedAt := now }
        else st1.failedItems i }

/-- The while loop of PriceQueue.processQueue.  The outcome of processItem
(all registered handlers racing their handler timeout) is abstracted by the
oracle hFail: none means every handler settled fulfilled, some e means at
least one handler rejected or timed out, making the whole item fail with
message e.  The global processing-timeout comparison of iteration k against
the drain start time is abstracted by the oracle timedOut k.  The loop is
driven by fuel; every theorem either holds for all fuel or supplies enough
fuel for the loop to empty the queue. -/
def processLoop {α : Type} (hFail : QItem α → Option String)
    (timedOut : Nat → Bool) (now : Int) :
    Nat → Nat → QueueState α → QueueState α
  | 0, _, st => st
  | fuel + 1, iter, st =>
    match st.queue with
    | [] => st
    | item :: rest =>
      if timedOut iter then
        { st with stats := { st.stats with timeouts := st.stats.timeouts + 1 } }
      else
        let st1 := { st with queue := rest }
        match hFail item with
        | none =>
          processLoop hFail timedOut now fuel (iter + 1)
            { st1 with stats := { st1.stats with processed := st1.stats.processed + 1 } }
        | some e =>
          processLoop hFail timedOut now fuel (iter + 1)
            (handleFailedItem now item e st1)

/-- PriceQueue.processQueue: the re-entrancy guard, the drain loop, and the
finally block that resets the in-progress flag. -/
def processQueue {α : Type} (hFail : QItem α → Option String)
    (timedOut : Nat → Bool) (now : Int) (fuel : Nat) (st : QueueState α) :
    QueueState α :=
  if st.processing then st
  else
    let st1 := { st with processing := true }
    let st2 := processLoop hFail timedOut now fuel 0 st1
    { st2 with processing := false }

/-- PriceQueue.add in full: admission and enqueue, then a drain pass when no
drain is in progress. -/
def add {α : Type} (valid : α → Bool) (hFail : QItem α → Option String)
    (timedOut : Nat → Bool) (now : Int) (fuel : Nat) (data : α)
    (st : QueueState α) : Except AddError (QueueState α) :=
  match addItem valid now data st with
  | .error e => .error e
  | .ok st1 =>
    if st1.processing then .ok st1
    else .ok (processQueue hFail timedOut now fuel st1)

end PriceQueue

namespace StorageService

/-- The synchronization-bucket keys the facade uses.  The source keys its
syncLock, syncQueue and lastSync maps by the strings price, config and
admins; the embedding names them as an enumeration. -/
inductive SyncType where
  | price
  | config
  | admins
deriving DecidableEq, Repr

/-- A buffered synchronization operation.  In the source these are closures
pushed by saveTokenPrice (write the observation to the memory store) and by
updateConfig (write the entry to the remote store); the embedding records
the write each closure performs. -/
inductive SyncOp where
  | savePriceToMemory (token : TokenData) (price : PriceData)
  | saveConfigToSupabase (key value : JSValue)
deriving DecidableEq, Repr

/-- Which concrete store object the facade delegate field this.storage
points to. -/
inductive StoreId where
  | supabase
  | memory
deriving DecidableEq, Repr

/-- State of the StorageService instance.  syncSnapshot holds, per type, the
operations local variable of an in-flight processSyncQueue call (the bucket
contents snapshotted under the lock); syncApplied is an observation log of
every buffered operation handed to execution, kept so that theorems can
state that no queued operation is lost. -/
structure FacadeState where
  useSupabase : Bool
  storage : StoreId
  remote : SupabaseService.RemoteState
  memory : MemoryStorage.MemState
  syncLock : SyncType → Bool
  syncBucket : SyncType → List SyncOp
  syncSnapshot : SyncType → List SyncOp
  syncApplied : SyncType → List SyncOp
  lastSync : SyncType → Int
  remoteAvailable : Bool

/-- The constructor state: remote mode with the delegate pointing at the
remote store, empty locks, buckets and timers.  remoteAvailable is the
startup credential probe of the remote adapter. -/
def initFacade (remoteAvailable : Bool) (remote : SupabaseService.RemoteState)
    (memory : MemoryStorage.MemState) : FacadeState where
  useSupabase := true
  storage := StoreId.supabase
  remote := remote
  memory := memory
  syncLock := fun _ => false
  syncBucket := fun _ => []
  syncSnapshot := fun _ => []
  syncApplied := fun _ => []
  lastSync := fun _ => 0
  remoteAvailable := remoteAvailable

/-- The milliseconds between flushes of one bucket (this.syncInterval). -/
def syncInterval : Int := 5000

/-- StorageService.validateData, case price: each numeric field must be
truthy and of number type. -/
def validatePriceData (d : PriceData) : Bool :=
  d.price.truthy && d.price.isNumber &&
  d.marketCap.truthy && d.marketCap.isNumber &&
  d.liquidity.truthy && d.liquidity.isNumber

/-- StorageService.validateData, case token: each field must be truthy and
of string type. -/
def validateTokenData (d : TokenData) : Bool :=
  d.address.truthy && d.address.isString &&
  d.poolAddress.truthy && d.poolAddress.isString &&
  d.ticker.truthy && d.ticker.isString

/-- StorageService.validateData, case config: the key must be a truthy
string and the value must not be undefined. -/
def validateConfigData (key value : JSValue) : Bool :=
  key.truthy && key.isString && decide (value ≠ JSValue.undef)

/-- Execute one buffered operation against the stores. -/
def applySyncOp (now : Int) (op : SyncOp) (st : FacadeState) : FacadeState :=
  match op with
  | .savePriceToMemory token price =>
    { st with memory := MemoryStorage.saveTokenPrice now token price st.memory }
  | .saveConfigToSupabase key value =>
    { st with remote := SupabaseService.updateConfig key value st.remote }

/-- First phase of StorageService.processSyncQueue, up to the first await of
a buffered operation: try to acquire the per-type lock — if it is already
held the call returns at once, touching nothing — then snapshot the bucket
into the operations variable, reset the bucket and stamp lastSync. -/
def flushBeginStep (now : Int) (t : SyncType) (st : FacadeState) : FacadeState :=
  if st.syncLock t then st
  else
    { st with
      syncLock := fun u => if u = t then true else st.syncLock u
      syncSnapshot := fun u => if u = t then st.syncBucket u else st.syncSnapshot u
      syncBucket := fun u => if u = t then [] else st.syncBucket u
      lastSync := fun u => if u = t then now else st.lastSync u }

/-- Run the snapshotted operations in order; a failing operation (oracle
opFails) is logged and skipped, not applied.  Every attempted operation is
recorded in the syncApplied log. -/
def runSyncOps (now : Int) (opFails : SyncOp → Bool) (t : SyncType) :
    List SyncOp → FacadeState → FacadeState
  | [], st => st
  | op :: ops, st =>
    let st1 := if opFails op then st else applySyncOp now op st
    runSyncOps now opFails t ops
      { st1 with syncApplied := fun u =>
          if u = t then st1.syncApplied u ++ [op] else st1.syncApplied u }

/-- Second phase of StorageService.processSyncQueue: run the snapshotted
operations in order and release the lock in the finally block.  Guarded on
the lock being held so that it is only meaningful after flushBeginStep
acquired it. -/
def flushEndStep (now : Int) (opFails : SyncOp → Bool) (t : SyncType)
    (st : FacadeState) : FacadeState :=
  if st.syncLock t then
    let st1 := runSyncOps now opFails t (st.syncSnapshot t) st
    { st1 with
      syncSnapshot := fun u => if u = t then [] else st1.syncSnapshot u
      syncLock := fun u => if u = t then false else st1.syncLock u }
  else st

/-- StorageService.processSyncQueue run to completion with no interleaving:
both phases back to back. -/
def processSyncQueue (now : Int) (opFails : SyncOp → Bool) (t : SyncType)
    (st : FacadeState) : FacadeState :=
  flushEndStep now opFails t (flushBeginStep now t st)

/-- StorageService.queueSync: append the operation to its bucket, then flush
the bucket when more than syncInterval has elapsed since its last flush
(lastSync missing reads as 0). -/
def queueSync (now : Int) (opFails : SyncOp → Bool) (t : SyncType)
    (op : SyncOp) (st : FacadeState) : FacadeState :=
  let st1 := { st with
    syncBucket := fun u => if u = t then st.syncBucket u ++ [op] else st.syncBucket u }
  if now - st1.lastSync t > syncInterval then processSyncQueue now opFails t st1
  else st1

/-- The error conditions a facade write surfaces synchronously. -/
inductive FacadeError where
  | invalidPriceData
  | invalidConfigData
deriving DecidableEq, Repr

/-- StorageService.saveTokenPrice: validate token and price, write to the
delegate this.storage, and, when the remote mode flag is set, queue the
memory-store write for synchronization. -/
def saveTokenPrice (now : Int) (opFails : SyncOp → Bool) (token : TokenData)
    (price : PriceData) (st : FacadeState) : Except FacadeError FacadeState :=
  if ¬ (validateTokenData token && validatePriceData price) then
    .error .invalidPriceData
  else
    let st1 :=
      match st.storage with
      | .supabase =>
        { st with remote := SupabaseService.saveTokenPrice now token price st.remote }
      | .memory =>
        { st with memory := MemoryStorage.saveTokenPrice now token price st.memory }
    if st1.useSupabase then
      .ok (queueSync now opFails SyncType.price (SyncOp.savePriceToMemory token price) st1)
    else
      .ok st1

/-- StorageService.updateConfig: validate, always write the memory store,
and, when the remote mode flag is set, queue the remote write for
synchronization. -/
def updateConfig (now : Int) (opFails : SyncOp → Bool) (key value : JSValue)
    (st : FacadeState) : Except FacadeError FacadeState :=
  if ¬ validateConfigData key value then
    .error .invalidConfigData
  else
    let st1 := { st with memory := MemoryStorage.updateConfig key value st.memory }
    if st1.useSupabase then
      .ok (queueSync now opFails SyncType.config (SyncOp.saveConfigToSupabase key value) st1)
    else
      .ok st1

/-- StorageService.isSupabaseAvailable: the startup probe of the adapter. -/
def isSupabaseAvailable (st : FacadeState) : Bool :=
  st.remoteAvailable

/-- StorageService.setStorageMode: refuse the switch to remote mode when the
remote probe reports unavailable, otherwise set the mode flag.  Note that
the delegate field this.storage is not touched. -/
def setStorageMode (useSupabase : Bool) (st : FacadeState) : FacadeState :=
  if useSupabase && ¬ isSupabaseAvailable st then st
  else { st with useSupabase := useSupabase }

/-- StorageService.getTokenPrice: delegate to this.storage. -/
def getTokenPrice (now : Int) (poolAddress : JSValue) (st : FacadeState) :
    Option PriceData :=
  match st.storage with
  | .supabase => SupabaseService.getTokenPrice now poolAddress st.remote
  | .memory => MemoryStorage.getTokenPrice now poolAddress st.memory

/-- StorageService.getPriceHistory delegates to this.storage; the embedding
records only which store serves the call. -/
def priceHistorySource (st : FacadeState) : StoreId :=
  st.storage

/-- A facade state reachable from the constructor state through the public
operations.  Used to state that the delegate field keeps its constructor
value forever. -/
inductive Reachable : FacadeState → Prop where
  | init (remoteAvailable : Bool) (remote : SupabaseService.RemoteState)
      (memory : MemoryStorage.MemState) :
      Reachable (initFacade remoteAvailable remote memory)
  | setMode (b : Bool) {st : FacadeState} :
      Reachable st → Reachable (setStorageMode b st)
  | savePrice (now : Int) (opFails : SyncOp → Bool) (token : TokenData)
      (price : PriceData) {st st' : FacadeState} :
      Reachable st → saveTokenPrice now opFails token price st = .ok st' →
      Reachable st'
  | configWrite (now : Int) (opFails : SyncOp → Bool) (key value : JSValue)
      {st st' : FacadeState} :
      Reachable st → updateConfig now opFails key value st = .ok st' →
      Reachable st'
  | enqueue (now : Int) (opFails : SyncOp → Bool) (t : SyncType) (op : SyncOp)
      {st : FacadeState} :
      Reachable st → Reachable (queueSync now opFails t op st)
  | flushB (now : Int) (t : SyncType) {st : FacadeState} :
      Reachable st → Reachable (flushBeginStep now t st)
  | flushE (now : Int) (opFails : SyncOp → Bool) (t : SyncType) {st : FacadeState} :
      Reachable st → Reachable (flushEndStep now opFails t st)

/-- One interleaving event of the synchronization protocol: a producer
appends an operation to a bucket, a flush acquires the lock and snapshots
the bucket, or an in-flight flush runs its snapshot and releases the lock.
The enqueue event is the push performed by queueSync before its flush
check. -/
inductive SyncEvent where
  | enqueue (t : SyncType) (op : SyncOp)
  | flushBegin (now : Int) (t : SyncType)
  | flushEnd (now : Int) (t : SyncType)

/-- Interpret one event. -/
def stepEvent (opFails : SyncOp → Bool) (st : FacadeState) :
    SyncEvent → FacadeState
  | .enqueue t op =>
    { st with syncBucket := fun u =>
        if u = t then st.syncBucket u ++ [op] else st.syncBucket u }
  | .flushBegin now t => flushBeginStep now t st
  | .flushEnd now t => flushEndStep now opFails t st

/-- Interpret a sequence of events. -/
def runEvents (opFails : SyncOp → Bool) (st : FacadeState)
    (tr : List SyncEvent) : FacadeState :=
  tr.foldl (stepEvent opFails) st

/-- The operations enqueued for one bucket along a trace, in order. -/
def enqueuedOps (t : SyncType) : List SyncEvent → List SyncOp
  | [] => []
  | .enqueue u op :: tr => (if u = t then [op] else []) ++ enqueuedOps t tr
  | _ :: tr => enqueuedOps t tr

end StorageService

/-- The newest-first ordering of a history series: the stored timestamps are
non-increasing along the list. -/
def newestFirst (l : List MemoryStorage.HistEntry) : Prop :=
  List.Chain' (fun a b => b.updated_at ≤ a.updated_at) l

/-- The acceptance condition as the specification words it for a price
payload: the required fields (price, marketCap, liquidity) are present, and
the numeric fields are true numbers. -/
def priceFieldsPresentAndNumeric (d : PriceData) : Bool :=
  d.price.isNumber && d.marketCap.isNumber && d.liquidity.isNumber

/-- Project the state out of a facade call that did not throw. -/
def okState (r : Except StorageService.FacadeError StorageService.FacadeState) :
    Option StorageService.FacadeState :=
  match r with
  | .ok s => some s
  | .error _ => none

namespace Fixtures

/-- A well-formed token payload. -/
def tok1 : TokenData where
  address := JSValue.str ("0xAAA")
  poolAddress := JSValue.str ("P1")
  ticker := JSValue.str ("TKN")
  name := JSValue.str ("TestToken")

/-- A well-formed price payload. -/
def price1 : PriceData where
  price := JSValue.num 5
  marketCap := JSValue.num 1000
  liquidity := JSValue.num 500
  volume24h := JSValue.num 10
  dexId := JSValue.str ("dex")

/-- A price payload whose fields are all present true numbers, with a zero
price. -/
def zeroPrice : PriceData where
  price := JSValue.num 0
  marketCap := JSValue.num 1000
  liquidity := JSValue.num 500
  volume24h := JSValue.num 10
  dexId := JSValue.str ("dex")

/-- A config key. -/
def k1 : JSValue := JSValue.str ("update_interval")

/-- A config value. -/
def v1 : JSValue := JSValue.str ("60")

/-- An oracle under which no buffered operation fails. -/
def neverFails : StorageService.SyncOp → Bool := fun _ => false

/-- A fresh facade over empty stores with the remote probe succeeding. -/
def facade0 : StorageService.FacadeState :=
  StorageService.initFacade true SupabaseService.initRemote MemoryStorage.initMem

/-- The fresh facade switched to memory (local) mode. -/
def facadeLocal : StorageService.FacadeState :=
  StorageService.setStorageMode false facade0

/-- A fresh facade whose remote probe failed. -/
def facadeNoRemote : StorageService.FacadeState :=
  StorageService.initFacade false SupabaseService.initRemote MemoryStorage.initMem

/-- The fresh module-level queue instance over Nat payloads. -/
def stEmptyQ : PriceQueue.QueueState Nat :=
  PriceQueue.queueInstance Nat

/-- The queue instance filled to its ceiling of 1000 pending items. -/
def stFullQ : PriceQueue.QueueState Nat :=
  { PriceQueue.queueInstance Nat with
    queue := List.replicate 1000 { id := 0, data := 0, addedAt := 0, retries := 0, lastError := none } }

/-- A single fresh queue item over Nat payloads. -/
def item1 : PriceQueue.QItem Nat where
  id := 7
  data := 42
  addedAt := 0
  retries := 0
  lastError := none

/-- The queue instance holding exactly item1. -/
def stOneQ : PriceQueue.QueueState Nat :=
  { PriceQueue.queueInstance Nat with queue := [item1] }

/-- The fresh facade with the price-bucket lock held (a flush in
progress). -/
def facadeLockedPrice : StorageService.FacadeState :=
  { facade0 with syncLock := fun u =>
      if u = StorageService.SyncType.price then true else false }

/-- A first synchronization operation. -/
def opA : StorageService.SyncOp :=
  StorageService.SyncOp.savePriceToMemory tok1 price1

/-- A second, distinct synchronization operation. -/
def opB : StorageService.SyncOp :=
  StorageService.SyncOp.savePriceToMemory tok1 zeroPrice

/-- The scenario trace of the specification: enqueue A, begin a flush (lock
held), enqueue B while the flush is in progress, finish the flush, then a
later flush picks up B. -/
def trace1 : List StorageService.SyncEvent :=
  [StorageService.SyncEvent.enqueue StorageService.SyncType.price opA,
   StorageService.SyncEvent.flushBegin 6000 StorageService.SyncType.price,
   StorageService.SyncEvent.enqueue StorageService.SyncType.price opB,
   StorageService.SyncEvent.flushEnd 6000 StorageService.SyncType.price,
   StorageService.SyncEvent.flushBegin 12000 StorageService.SyncType.price,
   StorageService.SyncEvent.flushEnd 12000 StorageService.SyncType.price]

end Fixtures

/-- A buffered operation only writes the stores: every synchronization
field of the facade is untouched. -/
theorem applySyncOp_preserve (now : Int) (op : StorageService.SyncOp)
    (st : StorageService.FacadeState) :
    (StorageService.applySyncOp now op st).syncLock = st.syncLock ∧
    (StorageService.applySyncOp now op st).syncBucket = st.syncBucket ∧
    (StorageService.applySyncOp now op st).syncSnapshot = st.syncSnapshot ∧
    (StorageService.applySyncOp now op st).syncApplied = st.syncApplied ∧
    (StorageService.applySyncOp now op st).lastSync = st.lastSync ∧
    (StorageService.applySyncOp now op st).storage = st.storage ∧
    (StorageService.applySyncOp now op st).useSupabase = st.useSupabase ∧
    (StorageService.applySyncOp now op st).remoteAvailable = st.remoteAvailable := by
  cases op <;> simp [StorageService.applySyncOp]

/-- Running buffered operations touches the stores and the applied log
only. -/
theorem runSyncOps_preserve (now : Int) (f : StorageService.SyncOp → Bool)
    (t : StorageService.SyncType) (ops : List StorageService.SyncOp)
    (st : StorageService.FacadeState) :
    (StorageService.runSyncOps now f t ops st).syncLock = st.syncLock ∧
    (StorageService.runSyncOps now f t ops st).syncBucket = st.syncBucket ∧
    (StorageService.runSyncOps now f t ops st).syncSnapshot = st.syncSnapshot ∧
    (StorageService.runSyncOps now f t ops st).lastSync = st.lastSync ∧
    (StorageService.runSyncOps now f t ops st).storage = st.storage ∧
    (StorageService.runSyncOps now f t ops st).useSupabase = st.useSupabase ∧
    (StorageService.runSyncOps now f t ops st).remoteAvailable = st.remoteAvailable := by
  induction ops generalizing st with
  | nil => simp [StorageService.runSyncOps]
  | cons op ops ih =>
    simp only [StorageService.runSyncOps]
    by_cases hf : f op
    · simpa [hf] using ih _
    · have happ := applySyncOp_preserve now op st
      have hrec := ih ({ (StorageService.applySyncOp now op st) with
        syncApplied := fun u =>
          if u = t then (StorageService.applySyncOp now op st).syncApplied u ++ [op]
          else (StorageService.applySyncOp now op st).syncApplied u })
      simp only [hf, if_neg] at *
      simp_all

/-- Running buffered operations appends exactly those operations to the
applied log of their bucket. -/
theorem runSyncOps_syncApplied (now : Int) (f : StorageService.SyncOp → Bool)
    (t : StorageService.SyncType) (ops : List StorageService.SyncOp)
    (st : StorageService.FacadeState) :
    (StorageService.runSyncOps now f t ops st).syncApplied =
      fun u => if u = t then st.syncApplied u ++ ops else st.syncApplied u := by
  induction ops generalizing st with
  | nil => funext u; simp [StorageService.runSyncOps]
  | cons op ops ih =>
    simp only [StorageService.runSyncOps]
    rw [ih]
    funext u
    by_cases hu : u = t
    · subst hu
      by_cases hf : f op
      · simp [hf]
      · simp [hf, (applySyncOp_preserve now op st).2.2.2.1]
    · by_cases hf : f op
      · simp [hf, hu]
      · simp [hf, hu, (applySyncOp_preserve now op st).2.2.2.1]

/-- C3: a stored price record older than 30 seconds is reported absent by
getTokenPrice on both the remote and the local read path even though the
record is still in storage, while a record within the window is returned
with fields identical to the ones saved. -/
theorem freshness_window_c3 (t0 now : Int) (token : TokenData) (price : PriceData)
    (strem : SupabaseService.RemoteState) (smem : MemoryStorage.MemState) :
    (now - t0 > 30 * 1000 →
      SupabaseService.getTokenPrice now token.poolAddress
          (SupabaseService.saveTokenPrice t0 token price strem) = none ∧
      MemoryStorage.getTokenPrice now token.poolAddress
          (MemoryStorage.saveTokenPrice t0 token price smem) = none) ∧
    (now - t0 ≤ 30 * 1000 →
      SupabaseService.getTokenPrice now token.poolAddress
          (SupabaseService.saveTokenPrice t0 token price strem) = some price ∧
      MemoryStorage.getTokenPrice now token.poolAddress
          (MemoryStorage.saveTokenPrice t0 token price smem) = some price) ∧
    (SupabaseService.saveTokenPrice t0 token price strem).token_prices
        token.poolAddress ≠ none ∧
    (MemoryStorage.saveTokenPrice t0 token price smem).prices
        token.poolAddress ≠ none := by
  refine ⟨fun h => ⟨?_, ?_⟩, fun h => ⟨?_, ?_⟩, ?_, ?_⟩
  · simp only [SupabaseService.getTokenPrice, SupabaseService.saveTokenPrice]
    simp
    omega
  · simp only [MemoryStorage.getTokenPrice, MemoryStorage.saveTokenPrice]
    simp
    omega
  · simp only [SupabaseService.getTokenPrice, SupabaseService.saveTokenPrice]
    simp
    omega
  · simp only [MemoryStorage.getTokenPrice, MemoryStorage.saveTokenPrice]
    simp
    omega
  · simp [SupabaseService.saveTokenPrice]
  · simp [MemoryStorage.saveTokenPrice]

/-- Witness for freshness_window_c3 at the scenario of the claim: saved at
t0 = 1000, read at t0 + 31s it is absent, read at t0 + 10s it is present
with identical fields. -/
theorem freshness_window_c3_witness :
    ((1000 : Int) + 31000 - 1000 > 30 * 1000 →
      SupabaseService.getTokenPrice (1000 + 31000) Fixtures.tok1.poolAddress
          (SupabaseService.saveTokenPrice 1000 Fixtures.tok1 Fixtures.price1
            SupabaseService.initRemote) = none ∧
      MemoryStorage.getTokenPrice (1000 + 31000) Fixtures.tok1.poolAddress
          (MemoryStorage.saveTokenPrice 1000 Fixtures.tok1 Fixtures.price1
            MemoryStorage.initMem) = none) ∧
    ((1000 : Int) + 10000 - 1000 ≤ 30 * 1000 →
      SupabaseService.getTokenPrice (1000 + 10000) Fixtures.tok1.poolAddress
          (SupabaseService.saveTokenPrice 1000 Fixtures.tok1 Fixtures.price1
            SupabaseService.initRemote) = some Fixtures.price1 ∧
      MemoryStorage.getTokenPrice (1000 + 10000) Fixtures.tok1.poolAddress
          (MemoryStorage.saveTokenPrice 1000 Fixtures.tok1 Fixtures.price1
            MemoryStorage.initMem) = some Fixtures.price1) :=
  ⟨fun h => ((freshness_window_c3 1000 (1000 + 31000) Fixtures.tok1 Fixtures.price1
      SupabaseService.initRemote MemoryStorage.initMem).1 h),
   fun h => ((freshness_window_c3 1000 (1000 + 10000) Fixtures.tok1 Fixtures.price1
      SupabaseService.initRemote MemoryStorage.initMem).2.1 h)⟩

/-- C7: switching to remote mode while the remote probe reports unavailable
is silently refused: the state (in particular the mode flag) is unchanged,
and repeating the refused call changes nothing either. -/
theorem mode_switch_refused_c7 (st : StorageService.FacadeState)
    (h : st.remoteAvailable = false) :
    StorageService.setStorageMode true st = st ∧
    StorageService.setStorageMode true (StorageService.setStorageMode true st) = st ∧
    (StorageService.setStorageMode true st).useSupabase = st.useSupabase := by
  have h1 : StorageService.setStorageMode true st = st := by
    simp [StorageService.setStorageMode, StorageService.isSupabaseAvailable, h]
  exact ⟨h1, by rw [h1, h1], by rw [h1]⟩

/-- Witness for mode_switch_refused_c7 on a fresh facade whose probe
failed. -/
theorem mode_switch_refused_c7_witness :
    StorageService.setStorageMode true Fixtures.facadeNoRemote = Fixtures.facadeNoRemote ∧
    StorageService.setStorageMode true
        (StorageService.setStorageMode true Fixtures.facadeNoRemote) =
      Fixtures.facadeNoRemote ∧
    (StorageService.setStorageMode true Fixtures.facadeNoRemote).useSupabase =
      Fixtures.facadeNoRemote.useSupabase :=
  mode_switch_refused_c7 Fixtures.facadeNoRemote rfl

/-- C5: an add against a queue whose pending count has reached maxQueueSize
throws QueueFull before anything else happens — nothing is enqueued, no
pending item is removed, and the caller is not blocked (the error is
synchronous, both for the admission phase and for add as a whole) — while
below the ceiling a valid payload is appended to the tail; the configured
ceiling defaults to 1000. -/
theorem queue_admission_c5 {α : Type} (valid : α → Bool) (now : Int) (d : α)
    (st : PriceQueue.QueueState α) :
    (st.queue.length ≥ st.maxQueueSize →
      PriceQueue.addItem valid now d st = .error .queueFull ∧
      ∀ (hFail : PriceQueue.QItem α → Option String) (timedOut : Nat → Bool)
        (fuel : Nat),
        PriceQueue.add valid hFail timedOut now fuel d st = .error .queueFull) ∧
    (st.queue.length < st.maxQueueSize → valid d = true →
      PriceQueue.addItem valid now d st =
        .ok { st with
              queue := st.queue ++
                [{ id := st.nextId, data := d, addedAt := now,
                   retries := 0, lastError := none }]
              nextId := st.nextId + 1 }) ∧
    (PriceQueue.mkQueue α none none none none).maxQueueSize = 1000 ∧
    (PriceQueue.queueInstance α).maxQueueSize = 1000 := by
  refine ⟨fun hfull => ?_, fun hlt hv => ?_, rfl, rfl⟩
  · have h1 : PriceQueue.addItem valid now d st = .error .queueFull := by
      simp [PriceQueue.addItem, hfull]
    exact ⟨h1, fun hF tO fuel => by simp [PriceQueue.add, h1]⟩
  · have hnot : ¬ st.queue.length ≥ st.maxQueueSize := by omega
    simp [PriceQueue.addItem, hnot, hv]

/-- Witness for queue_admission_c5: the module instance (ceiling 1000) full
with 1000 items rejects an add with QueueFull, and the same instance while
empty accepts and appends the item. -/
theorem queue_admission_c5_witness :
    PriceQueue.addItem (fun _ => true) 0 (5 : Nat) Fixtures.stFullQ =
      .error .queueFull ∧
    PriceQueue.addItem (fun _ => true) 0 (5 : Nat) Fixtures.stEmptyQ =
      .ok { Fixtures.stEmptyQ with
            queue := Fixtures.stEmptyQ.queue ++
              [{ id := Fixtures.stEmptyQ.nextId, data := 5, addedAt := 0,
                 retries := 0, lastError := none }]
            nextId := Fixtures.stEmptyQ.nextId + 1 } :=
  ⟨((queue_admission_c5 (fun _ => true) 0 5 Fixtures.stFullQ).1
      (by simp only [Fixtures.stFullQ, PriceQueue.queueInstance, PriceQueue.mkQueue,
                     PriceQueue.orDefaultNat, List.length_replicate]
          norm_num)).1,
   (queue_admission_c5 (fun _ => true) 0 5 Fixtures.stEmptyQ).2.1
      (by simp [Fixtures.stEmptyQ, PriceQueue.queueInstance, PriceQueue.mkQueue,
                PriceQueue.orDefaultNat]) rfl⟩

/-- C10: the re-entrancy guards are released on every exit path: a drain
pass that actually ran (was not rejected by the guard) always leaves the
processing flag false, whatever the handler outcomes and timeouts were; and
a bucket flush that found the per-type lock free always leaves that lock
released again, whatever buffered operations failed.  Hence one failing
drain or flush never blocks the next one. -/
theorem guards_released_c10 :
    (∀ (α : Type) (hFail : PriceQueue.QItem α → Option String)
       (timedOut : Nat → Bool) (now : Int) (fuel : Nat)
       (st : PriceQueue.QueueState α),
        st.processing = false →
        (PriceQueue.processQueue hFail timedOut now fuel st).processing = false) ∧
    (∀ (now : Int) (opFails : StorageService.SyncOp → Bool)
       (t : StorageService.SyncType) (st : StorageService.FacadeState),
        st.syncLock t = false →
        (StorageService.processSyncQueue now opFails t st).syncLock t = false) := by
  constructor
  · intro α hF tO now fuel st h
    simp [PriceQueue.processQueue, h]
  · intro now f t st h
    unfold StorageService.processSyncQueue StorageService.flushBeginStep
    rw [if_neg (by simp [h])]
    unfold StorageService.flushEndStep
    rw [if_pos (by simp)]
    simp

/-- Witness for guards_released_c10: a drain over the empty instance with
failing handlers, and a flush of the price bucket of the fresh facade. -/
theorem guards_released_c10_witness :
    (PriceQueue.processQueue (fun _ => some ("boom")) (fun _ => false) 0 5
        Fixtures.stEmptyQ).processing = false ∧
    (StorageService.processSyncQueue 9000 Fixtures.neverFails
        StorageService.SyncType.price Fixtures.facade0).syncLock
        StorageService.SyncType.price = false :=
  ⟨guards_released_c10.1 Nat (fun _ => some ("boom")) (fun _ => false) 0 5
      Fixtures.stEmptyQ rfl,
   guards_released_c10.2 9000 Fixtures.neverFails StorageService.SyncType.price
      Fixtures.facade0 rfl⟩

/-- The history series written for the saved pool is the push-front of the
new entry truncated to 24 entries. -/
theorem memSave_history_key (now : Int) (token : TokenData) (price : PriceData)
    (st : MemoryStorage.MemState) :
    (MemoryStorage.saveTokenPrice now token price st).history token.poolAddress =
      (({ price := price.price, updated_at := now } : MemoryStorage.HistEntry)
        :: st.history token.poolAddress).take 24 := by
  simp [MemoryStorage.saveTokenPrice]

/-- The history series of any other pool is untouched by a save. -/
theorem memSave_history_other (now : Int) (token : TokenData) (price : PriceData)
    (st : MemoryStorage.MemState) (p : JSValue) (hp : p ≠ token.poolAddress) :
    (MemoryStorage.saveTokenPrice now token price st).history p = st.history p := by
  simp [MemoryStorage.saveTokenPrice, hp]

/-- One save keeps every history series at 24 entries or fewer. -/
theorem memSave_hist_len (now : Int) (token : TokenData) (price : PriceData)
    (st : MemoryStorage.MemState)
    (h : ∀ q, (st.history q).length ≤ 24) (q : JSValue) :
    ((MemoryStorage.saveTokenPrice now token price st).history q).length ≤ 24 := by
  by_cases hq : q = token.poolAddress
  · subst hq
    rw [memSave_history_key]
    simp [List.length_take]
  · rw [memSave_history_other now token price st q hq]
    exact h q

/-- Any fold of saves keeps every history series at 24 entries or fewer. -/
theorem memSave_hist_len_fold (saves : List (Int × TokenData × PriceData)) :
    ∀ (st : MemoryStorage.MemState), (∀ q, (st.history q).length ≤ 24) →
    ∀ q, (((saves.foldl
        (fun s a => MemoryStorage.saveTokenPrice a.1 a.2.1 a.2.2 s) st)).history q).length ≤ 24 := by
  induction saves with
  | nil => intro st h q; exact h q
  | cons a rest ih =>
    intro st h q
    exact ih _ (fun r => memSave_hist_len a.1 a.2.1 a.2.2 st h r) q

/-- One save at a time not earlier than every stored entry preserves the
newest-first ordering of every series and bounds every entry by the new
time. -/
theorem memSave_chain_inv (now T : Int) (token : TokenData) (price : PriceData)
    (st : MemoryStorage.MemState)
    (hchain : ∀ q, newestFirst (st.history q))
    (hle : ∀ q, ∀ e ∈ st.history q, e.updated_at ≤ T)
    (hT : T ≤ now) :
    (∀ q, newestFirst ((MemoryStorage.saveTokenPrice now token price st).history q)) ∧
    (∀ q, ∀ e ∈ (MemoryStorage.saveTokenPrice now token price st).history q,
      e.updated_at ≤ now) := by
  constructor
  · intro q
    by_cases hq : q = token.poolAddress
    · subst hq
      rw [memSave_history_key]
      apply List.Chain'.take
      rw [List.chain'_cons']
      refine ⟨?_, hchain token.poolAddress⟩
      intro b hb
      have hmem : b ∈ st.history token.poolAddress := by
        cases hh : st.history token.poolAddress with
        | nil => simp [hh] at hb
        | cons x xs => simp [hh] at hb; simp [hh, hb]
      have := hle token.poolAddress b hmem
      simpa using le_trans this hT
    · rw [memSave_history_other now token price st q hq]
      exact hchain q
  · intro q e he
    by_cases hq : q = token.poolAddress
    · subst hq
      rw [memSave_history_key] at he
      have he2 := List.take_subset 24 _ he
      rcases List.mem_cons.mp he2 with h1 | h2
      · subst h1; simp
      · exact le_trans (hle token.poolAddress e h2) hT
    · rw [memSave_history_other now token price st q hq] at he
      exact le_trans (hle q e he) hT

/-- Folding saves whose timestamps are non-decreasing (and not earlier than
every entry already stored) keeps every series newest-first. -/
theorem memSave_chain_fold (saves : List (Int × TokenData × PriceData)) :
    ∀ (st : MemoryStorage.MemState) (T : Int),
    (∀ q, newestFirst (st.history q)) →
    (∀ q, ∀ e ∈ st.history q, e.updated_at ≤ T) →
    List.Chain' (· ≤ ·) (T :: saves.map (fun a => a.1)) →
    ∀ q, newestFirst (((saves.foldl
        (fun s a => MemoryStorage.saveTokenPrice a.1 a.2.1 a.2.2 s) st)).history q) := by
  induction saves with
  | nil => intro st T h _ _ q; exact h q
  | cons a rest ih =>
    intro st T hchain hle hc q
    simp only [List.map_cons] at hc
    rw [List.chain'_cons] at hc
    have hinv := memSave_chain_inv a.1 T a.2.1 a.2.2 st hchain hle hc.1
    have hc2 : List.Chain' (· ≤ ·) (a.1 :: rest.map (fun x => x.1)) := by
      simpa using hc.2
    exact ih _ a.1 hinv.1 hinv.2 hc2 q

/-- C4: every history series of the local store holds at most 24 entries at
all times under any sequence of saves, each save pushes the new entry at
the front and truncates the series to 24, and under non-decreasing save
timestamps every series stays ordered newest-first. -/
theorem history_bounded_c4 :
    (∀ (saves : List (Int × TokenData × PriceData)) (p : JSValue),
      (((saves.foldl (fun s a => MemoryStorage.saveTokenPrice a.1 a.2.1 a.2.2 s)
          MemoryStorage.initMem)).history p).length ≤ 24) ∧
    (∀ (now : Int) (token : TokenData) (price : PriceData)
       (st : MemoryStorage.MemState),
      (MemoryStorage.saveTokenPrice now token price st).history token.poolAddress =
        (({ price := price.price, updated_at := now } : MemoryStorage.HistEntry)
          :: st.history token.poolAddress).take 24) ∧
    (∀ (saves : List (Int × TokenData × PriceData)) (p : JSValue),
      List.Chain' (· ≤ ·) (saves.map (fun a => a.1)) →
      newestFirst (((saves.foldl
          (fun s a => MemoryStorage.saveTokenPrice a.1 a.2.1 a.2.2 s)
          MemoryStorage.initMem)).history p)) := by
  refine ⟨?_, memSave_history_key, ?_⟩
  · intro saves p
    exact memSave_hist_len_fold saves MemoryStorage.initMem
      (fun q => by simp [MemoryStorage.initMem]) p
  · intro saves p hc
    cases saves with
    | nil => simp [MemoryStorage.initMem, newestFirst]
    | cons a rest =>
      apply memSave_chain_fold (a :: rest) MemoryStorage.initMem a.1
      · intro q; simp [MemoryStorage.initMem, newestFirst]
      · intro q e he; simp [MemoryStorage.initMem] at he
      · simp only [List.map_cons] at hc ⊢
        rw [List.chain'_cons]
        exact ⟨le_refl _, hc⟩

/-- Witness for history_bounded_c4 on a two-save run with non-decreasing
timestamps. -/
theorem history_bounded_c4_witness :
    ((([(1000, Fixtures.tok1, Fixtures.price1),
        (2000, Fixtures.tok1, Fixtures.price1)] :
          List (Int × TokenData × PriceData)).foldl
        (fun s a => MemoryStorage.saveTokenPrice a.1 a.2.1 a.2.2 s)
        MemoryStorage.initMem).history (JSValue.str ("P1"))).length ≤ 24 ∧
    List.Chain' (· ≤ ·)
      (([(1000, Fixtures.tok1, Fixtures.price1),
         (2000, Fixtures.tok1, Fixtures.price1)] :
          List (Int × TokenData × PriceData)).map (fun a => a.1)) ∧
    newestFirst ((([(1000, Fixtures.tok1, Fixtures.price1),
        (2000, Fixtures.tok1, Fixtures.price1)] :
          List (Int × TokenData × PriceData)).foldl
        (fun s a => MemoryStorage.saveTokenPrice a.1 a.2.1 a.2.2 s)
        MemoryStorage.initMem).history (JSValue.str ("P1"))) :=
  ⟨history_bounded_c4.1 _ _,
   by simp,
   history_bounded_c4.2.2 _ (JSValue.str ("P1")) (by simp)⟩

/-- Counterexample to C8 as stated: the payload with price 0 has all
required fields present and all numeric fields true numbers, yet the
facade rejects it as invalid (the validation tests JS truthiness, and 0 is
falsy), so a write the claim says is accepted in fact fails. -/
theorem write_validation_c8_counterexample :
    priceFieldsPresentAndNumeric Fixtures.zeroPrice = true ∧
    StorageService.validatePriceData Fixtures.zeroPrice = false ∧
    StorageService.saveTokenPrice 1000 Fixtures.neverFails Fixtures.tok1
        Fixtures.zeroPrice Fixtures.facade0 = .error .invalidPriceData :=
  ⟨by decide, by decide, rfl⟩

/-- C8 amended: writes are shape-checked before acceptance, but acceptance
additionally requires every checked field to be truthy — a price payload is
accepted exactly when its required fields are present true numbers AND all
of them are nonzero; any write failing validation throws the invalid-data
error synchronously, before anything is queued or persisted (the throw
happens before either store or any synchronization bucket is touched), and
any write passing validation is accepted. -/
theorem write_validation_c8_amended (now : Int)
    (opF : StorageService.SyncOp → Bool) (token : TokenData) (price : PriceData)
    (key value : JSValue) (st : StorageService.FacadeState) :
    StorageService.validatePriceData price =
      (priceFieldsPresentAndNumeric price && price.price.truthy &&
       price.marketCap.truthy && price.liquidity.truthy) ∧
    ((StorageService.validateTokenData token &&
        StorageService.validatePriceData price) = false →
      StorageService.saveTokenPrice now opF token price st =
        .error .invalidPriceData) ∧
    ((StorageService.validateTokenData token &&
        StorageService.validatePriceData price) = true →
      ∃ st', StorageService.saveTokenPrice now opF token price st = .ok st') ∧
    (StorageService.validateConfigData key value = false →
      StorageService.updateConfig now opF key value st =
        .error .invalidConfigData) ∧
    (StorageService.validateConfigData key value = true →
      ∃ st', StorageService.updateConfig now opF key value st = .ok st') := by
  refine ⟨?_, fun h => ?_, fun h => ?_, fun h => ?_, fun h => ?_⟩
  · have hkey : ∀ t1 n1 t2 n2 t3 n3 : Bool,
        (((((t1 && n1) && t2) && n2) && t3) && n3) =
          (((((n1 && n2) && n3) && t1) && t2) && t3) := by decide
    simp only [StorageService.validatePriceData, priceFieldsPresentAndNumeric]
    exact hkey _ _ _ _ _ _
  · simp [StorageService.saveTokenPrice, h]
  · simp only [StorageService.saveTokenPrice, h]
    cases hs : st.storage <;> cases hu : st.useSupabase <;>
      simp [hs, hu]
  · simp [StorageService.updateConfig, h]
  · simp only [StorageService.updateConfig, h]
    cases hu : st.useSupabase <;> simp [hu]

/-- Witness for write_validation_c8_amended: a fully valid price write is
accepted, and a config write with an undefined key is rejected. -/
theorem write_validation_c8_amended_witness :
    (∃ st', StorageService.saveTokenPrice 1000 Fixtures.neverFails Fixtures.tok1
        Fixtures.price1 Fixtures.facade0 = .ok st') ∧
    StorageService.updateConfig 1000 Fixtures.neverFails JSValue.undef
        JSValue.undef Fixtures.facade0 = .error .invalidConfigData :=
  ⟨(write_validation_c8_amended 1000 Fixtures.neverFails Fixtures.tok1
      Fixtures.price1 JSValue.undef JSValue.undef Fixtures.facade0).2.2.1
      (by decide),
   (write_validation_c8_amended 1000 Fixtures.neverFails Fixtures.tok1
      Fixtures.price1 JSValue.undef JSValue.undef Fixtures.facade0).2.2.2.1
      (by decide)⟩

/-- Acquiring a flush lock never moves the delegate field. -/
theorem flushBeginStep_storage (now : Int) (t : StorageService.SyncType)
    (st : StorageService.FacadeState) :
    (StorageService.flushBeginStep now t st).storage = st.storage := by
  unfold StorageService.flushBeginStep
  split_ifs <;> rfl

/-- Finishing a flush never moves the delegate field. -/
theorem flushEndStep_storage (now : Int) (f : StorageService.SyncOp → Bool)
    (t : StorageService.SyncType) (st : StorageService.FacadeState) :
    (StorageService.flushEndStep now f t st).storage = st.storage := by
  unfold StorageService.flushEndStep
  split_ifs with h
  · exact (runSyncOps_preserve now f t (st.syncSnapshot t) st).2.2.2.2.1
  · rfl

/-- Queueing a synchronization operation never moves the delegate field. -/
theorem queueSync_storage (now : Int) (f : StorageService.SyncOp → Bool)
    (t : StorageService.SyncType) (op : StorageService.SyncOp)
    (st : StorageService.FacadeState) :
    (StorageService.queueSync now f t op st).storage = st.storage := by
  simp only [StorageService.queueSync, StorageService.processSyncQueue]
  split_ifs with h
  · rw [flushEndStep_storage, flushBeginStep_storage]
  · rfl

/-- A successful facade price write never moves the delegate field. -/
theorem saveTokenPrice_ok_storage (now : Int) (f : StorageService.SyncOp → Bool)
    (token : TokenData) (price : PriceData) (st st' : StorageService.FacadeState)
    (hok : StorageService.saveTokenPrice now f token price st = .ok st') :
    st'.storage = st.storage := by
  by_cases hv : (StorageService.validateTokenData token &&
      StorageService.validatePriceData price) = true
  · cases hst : st.storage <;> cases hu : st.useSupabase <;>
      simp only [StorageService.saveTokenPrice, hv, hst, hu, Bool.not_true,
        not_false_iff, if_false, Except.ok.injEq] at hok <;>
      simp at hok <;> rw [← hok] <;> rw [queueSync_storage]
  · have hvf : (StorageService.validateTokenData token &&
        StorageService.validatePriceData price) = false := by
      revert hv
      cases (StorageService.validateTokenData token &&
        StorageService.validatePriceData price) <;> simp
    simp [StorageService.saveTokenPrice, hvf] at hok

/-- A successful facade config write never moves the delegate field. -/
theorem updateConfig_ok_storage (now : Int) (f : StorageService.SyncOp → Bool)
    (key value : JSValue) (st st' : StorageService.FacadeState)
    (hok : StorageService.updateConfig now f key value st = .ok st') :
    st'.storage = st.storage := by
  by_cases hv : StorageService.validateConfigData key value = true
  · cases hu : st.useSupabase <;>
      simp only [StorageService.updateConfig, hv, hu, Bool.not_true,
        not_false_iff, if_false, Except.ok.injEq] at hok <;>
      simp at hok <;> rw [← hok] <;> rw [queueSync_storage]
  · have hvf : StorageService.validateConfigData key value = false := by
      revert hv
      cases StorageService.validateConfigData key value <;> simp
    simp [StorageService.updateConfig, hvf] at hok

/-- C2 (bug demonstration): in every state the facade can reach, the
delegate field this.storage still points at the remote store — the mode
switch only flips the useSupabase flag and never reassigns the delegate —
so getTokenPrice (and every delegated operation) is served by the remote
store even after setStorageMode has switched the facade to local mode,
contradicting the claim that these operations follow the mode flag. -/
theorem reads_follow_mode_bug_c2 (st : StorageService.FacadeState)
    (h : StorageService.Reachable st) :
    st.storage = StorageService.StoreId.supabase ∧
    ∀ (now : Int) (pool : JSValue),
      StorageService.getTokenPrice now pool st =
        SupabaseService.getTokenPrice now pool st.remote := by
  have hs : st.storage = StorageService.StoreId.supabase := by
    induction h with
    | init a r m => rfl
    | setMode b h ih =>
      unfold StorageService.setStorageMode
      split_ifs <;> exact ih
    | savePrice now opF token price h hok ih =>
      rw [saveTokenPrice_ok_storage _ _ _ _ _ _ hok]; exact ih
    | configWrite now opF key value h hok ih =>
      rw [updateConfig_ok_storage _ _ _ _ _ _ hok]; exact ih
    | enqueue now opF t op h ih =>
      rw [queueSync_storage]; exact ih
    | flushB now t h ih =>
      rw [flushBeginStep_storage]; exact ih
    | flushE now opF t h ih =>
      rw [flushEndStep_storage]; exact ih
  exact ⟨hs, fun now pool => by simp [StorageService.getTokenPrice, hs]⟩

/-- Witness for reads_follow_mode_bug_c2 at the failing input: a fresh
facade switched to local mode has the mode flag at local, yet its reads are
still served by the remote store. -/
theorem reads_follow_mode_bug_c2_witness :
    Fixtures.facadeLocal.useSupabase = false ∧
    Fixtures.facadeLocal.storage = StorageService.StoreId.supabase ∧
    StorageService.getTokenPrice 5000 (JSValue.str ("P1")) Fixtures.facadeLocal =
      SupabaseService.getTokenPrice 5000 (JSValue.str ("P1"))
        Fixtures.facadeLocal.remote :=
  ⟨by decide,
   (reads_follow_mode_bug_c2 Fixtures.facadeLocal
      (StorageService.Reachable.setMode false
        (StorageService.Reachable.init true SupabaseService.initRemote
          MemoryStorage.initMem))).1,
   (reads_follow_mode_bug_c2 Fixtures.facadeLocal
      (StorageService.Reachable.setMode false
        (StorageService.Reachable.init true SupabaseService.initRemote
          MemoryStorage.initMem))).2 5000 (JSValue.str ("P1"))⟩

/-- Counterexample to C1 as stated.  First run: with the facade switched to
local mode, a price write lands in the remote store and not in the local
store (the claim says it goes to local only with no remote write).  Second
run: with remote mode authoritative, a config write is applied to the local
store synchronously while the remote store receives nothing synchronously —
the operation queued in the config bucket targets the remote store, not the
local one (the claim says the synchronous write goes to the authoritative
remote store and the queued propagation targets the local store). -/
theorem write_path_c1_counterexample :
    ((okState (StorageService.saveTokenPrice 1000 Fixtures.neverFails
        Fixtures.tok1 Fixtures.price1 Fixtures.facadeLocal)).map
      (fun s => ((s.remote.token_prices (JSValue.str ("P1"))).isSome,
                 (s.memory.prices (JSValue.str ("P1"))).isSome)) =
      some (true, false)) ∧
    ((okState (StorageService.updateConfig 1000 Fixtures.neverFails
        Fixtures.k1 Fixtures.v1 Fixtures.facade0)).map
      (fun s => (s.memory.config Fixtures.k1,
                 (s.remote.bot_config Fixtures.k1).isSome,
                 s.syncBucket StorageService.SyncType.config)) =
      some (some Fixtures.v1, false,
        [StorageService.SyncOp.saveConfigToSupabase Fixtures.k1 Fixtures.v1])) := by
  constructor
  · rfl
  · rfl

/-- When a bucket flush is not yet due, queueSync only appends the
operation to the bucket and touches neither store. -/
theorem queueSync_noflush_fields (now : Int) (opF : StorageService.SyncOp → Bool)
    (t : StorageService.SyncType) (op : StorageService.SyncOp)
    (st : StorageService.FacadeState)
    (hf : ¬ now - st.lastSync t > StorageService.syncInterval) :
    (StorageService.queueSync now opF t op st).syncBucket t = st.syncBucket t ++ [op] ∧
    (StorageService.queueSync now opF t op st).memory = st.memory ∧
    (StorageService.queueSync now opF t op st).remote = st.remote := by
  simp [StorageService.queueSync, hf]

/-- When the flush is due, the lock is free and the bucket was empty,
queueSync drains the bucket: the freshly queued operation is executed (or
skipped when it fails) and recorded in the applied log, and the bucket ends
empty. -/
theorem queueSync_flush_fields (now : Int) (opF : StorageService.SyncOp → Bool)
    (t : StorageService.SyncType) (op : StorageService.SyncOp)
    (st : StorageService.FacadeState)
    (hb : st.syncBucket t = []) (hl : st.syncLock t = false)
    (hf : now - st.lastSync t > StorageService.syncInterval) :
    (StorageService.queueSync now opF t op st).syncBucket t = [] ∧
    (StorageService.queueSync now opF t op st).memory =
      (if opF op = true then st.memory else (StorageService.applySyncOp now op st).memory) ∧
    (StorageService.queueSync now opF t op st).remote =
      (if opF op = true then st.remote else (StorageService.applySyncOp now op st).remote) ∧
    (StorageService.queueSync now opF t op st).syncApplied t =
      st.syncApplied t ++ [op] := by
  by_cases hop : opF op = true <;> cases op <;>
    simp [StorageService.queueSync, StorageService.processSyncQueue,
          StorageService.flushBeginStep, StorageService.flushEndStep,
          StorageService.runSyncOps, StorageService.applySyncOp,
          hf, hb, hl, hop]

/-- C1 amended: both write paths are mode-independent in their synchronous
target and route the cross-store copy through the synchronization queue
only while the remote mode flag is set.  saveTokenPrice always writes the
remote store synchronously (the delegate is fixed at the remote store);
when the mode flag is remote the local-store copy is queued in the price
bucket (and is applied to the local store if that enqueue triggers the
bucket flush), and when the flag is local no local write and no queueing
happens at all.  updateConfig always writes the local store synchronously;
when the flag is remote the remote-store copy is queued in the config
bucket (applied to the remote store on flush), and when the flag is local
the remote store is never written. -/
theorem write_path_c1_amended (now : Int) (opF : StorageService.SyncOp → Bool)
    (token : TokenData) (price : PriceData) (key value : JSValue)
    (st : StorageService.FacadeState)
    (hv1 : StorageService.validateTokenData token = true)
    (hv2 : StorageService.validatePriceData price = true)
    (hv3 : StorageService.validateConfigData key value = true)
    (hstore : st.storage = StorageService.StoreId.supabase)
    (hbp : st.syncBucket StorageService.SyncType.price = [])
    (hlp : st.syncLock StorageService.SyncType.price = false)
    (hbc : st.syncBucket StorageService.SyncType.config = [])
    (hlc : st.syncLock StorageService.SyncType.config = false) :
    (∃ st', StorageService.saveTokenPrice now opF token price st = .ok st' ∧
      st'.remote = SupabaseService.saveTokenPrice now token price st.remote ∧
      (st.useSupabase = false → st'.memory = st.memory ∧
        st'.syncBucket StorageService.SyncType.price = []) ∧
      (st.useSupabase = true →
        (st'.syncBucket StorageService.SyncType.price =
            [StorageService.SyncOp.savePriceToMemory token price] ∧
         st'.memory = st.memory) ∨
        (st'.syncBucket StorageService.SyncType.price = [] ∧
         st'.memory =
           (if opF (StorageService.SyncOp.savePriceToMemory token price) = true
            then st.memory
            else MemoryStorage.saveTokenPrice now token price st.memory)))) ∧
    (∃ st', StorageService.updateConfig now opF key value st = .ok st' ∧
      st'.memory = MemoryStorage.updateConfig key value st.memory ∧
      (st.useSupabase = false → st'.remote = st.remote ∧
        st'.syncBucket StorageService.SyncType.config = []) ∧
      (st.useSupabase = true →
        (st'.syncBucket StorageService.SyncType.config =
            [StorageService.SyncOp.saveConfigToSupabase key value] ∧
         st'.remote = st.remote) ∨
        (st'.syncBucket StorageService.SyncType.config = [] ∧
         st'.remote =
           (if opF (StorageService.SyncOp.saveConfigToSupabase key value) = true
            then st.remote
            else SupabaseService.updateConfig key value st.remote)))) := by
  constructor
  · cases hu : st.useSupabase
    · refine ⟨{ st with remote := SupabaseService.saveTokenPrice now token price st.remote },
        ?_, rfl, fun _ => ⟨rfl, hbp⟩, fun hcontra => by simp [hu] at hcontra⟩
      simp [StorageService.saveTokenPrice, hv1, hv2, hstore, hu]
    · have hok : StorageService.saveTokenPrice now opF token price st =
          .ok (StorageService.queueSync now opF StorageService.SyncType.price
            (StorageService.SyncOp.savePriceToMemory token price)
            { st with remote := SupabaseService.saveTokenPrice now token price st.remote }) := by
        simp [StorageService.saveTokenPrice, hv1, hv2, hstore, hu]
      refine ⟨_, hok, ?_, fun hcontra => by simp [hu] at hcontra, fun _ => ?_⟩
      · by_cases hf : now - st.lastSync StorageService.SyncType.price >
            StorageService.syncInterval
        · have hq := queueSync_flush_fields now opF StorageService.SyncType.price
            (StorageService.SyncOp.savePriceToMemory token price)
            { st with remote := SupabaseService.saveTokenPrice now token price st.remote }
            hbp hlp hf
          rw [hq.2.2.1]
          split_ifs <;> rfl
        · have hq := queueSync_noflush_fields now opF StorageService.SyncType.price
            (StorageService.SyncOp.savePriceToMemory token price)
            { st with remote := SupabaseService.saveTokenPrice now token price st.remote }
            hf
          rw [hq.2.2]
      · by_cases hf : now - st.lastSync StorageService.SyncType.price >
            StorageService.syncInterval
        · right
          have hq := queueSync_flush_fields now opF StorageService.SyncType.price
            (StorageService.SyncOp.savePriceToMemory token price)
            { st with remote := SupabaseService.saveTokenPrice now token price st.remote }
            hbp hlp hf
          exact ⟨hq.1, by rw [hq.2.1]; split_ifs <;> rfl⟩
        · left
          have hq := queueSync_noflush_fields now opF StorageService.SyncType.price
            (StorageService.SyncOp.savePriceToMemory token price)
            { st with remote := SupabaseService.saveTokenPrice now token price st.remote }
            hf
          refine ⟨?_, hq.2.1⟩
          rw [hq.1, hbp]
          rfl
  · cases hu : st.useSupabase
    · refine ⟨{ st with memory := MemoryStorage.updateConfig key value st.memory },
        ?_, rfl, fun _ => ⟨rfl, hbc⟩, fun hcontra => by simp [hu] at hcontra⟩
      simp [StorageService.updateConfig, hv3, hu]
    · have hok : StorageService.updateConfig now opF key value st =
          .ok (StorageService.queueSync now opF StorageService.SyncType.config
            (StorageService.SyncOp.saveConfigToSupabase key value)
            { st with memory := MemoryStorage.updateConfig key value st.memory }) := by
        simp [StorageService.updateConfig, hv3, hu]
      refine ⟨_, hok, ?_, fun hcontra => by simp [hu] at hcontra, fun _ => ?_⟩
      · by_cases hf : now - st.lastSync StorageService.SyncType.config >
            StorageService.syncInterval
        · have hq := queueSync_flush_fields now opF StorageService.SyncType.config
            (StorageService.SyncOp.saveConfigToSupabase key value)
            { st with memory := MemoryStorage.updateConfig key value st.memory }
            hbc hlc hf
          rw [hq.2.1]
          split_ifs <;> rfl
        · have hq := queueSync_noflush_fields now opF StorageService.SyncType.config
            (StorageService.SyncOp.saveConfigToSupabase key value)
            { st with memory := MemoryStorage.updateConfig key value st.memory }
            hf
          rw [hq.2.1]
      · by_cases hf : now - st.lastSync StorageService.SyncType.config >
            StorageService.syncInterval
        · right
          have hq := queueSync_flush_fields now opF StorageService.SyncType.config
            (StorageService.SyncOp.saveConfigToSupabase key value)
            { st with memory := MemoryStorage.updateConfig key value st.memory }
            hbc hlc hf
          exact ⟨hq.1, by rw [hq.2.2.1]; split_ifs <;> rfl⟩
        · left
          have hq := queueSync_noflush_fields now opF StorageService.SyncType.config
            (StorageService.SyncOp.saveConfigToSupabase key value)
            { st with memory := MemoryStorage.updateConfig key value st.memory }
            hf
          refine ⟨?_, hq.2.2⟩
          rw [hq.1, hbc]
          rfl

/-- Witness for write_path_c1_amended on the fresh facade in remote mode
with no flush due. -/
theorem write_path_c1_amended_witness :
    (∃ st', StorageService.saveTokenPrice 1000 Fixtures.neverFails Fixtures.tok1
        Fixtures.price1 Fixtures.facade0 = .ok st' ∧
      st'.remote = SupabaseService.saveTokenPrice 1000 Fixtures.tok1
        Fixtures.price1 Fixtures.facade0.remote ∧
      (Fixtures.facade0.useSupabase = false → st'.memory = Fixtures.facade0.memory ∧
        st'.syncBucket StorageService.SyncType.price = []) ∧
      (Fixtures.facade0.useSupabase = true →
        (st'.syncBucket StorageService.SyncType.price =
            [StorageService.SyncOp.savePriceToMemory Fixtures.tok1 Fixtures.price1] ∧
         st'.memory = Fixtures.facade0.memory) ∨
        (st'.syncBucket StorageService.SyncType.price = [] ∧
         st'.memory =
           (if Fixtures.neverFails (StorageService.SyncOp.savePriceToMemory
               Fixtures.tok1 Fixtures.price1) = true
            then Fixtures.facade0.memory
            else MemoryStorage.saveTokenPrice 1000 Fixtures.tok1 Fixtures.price1
              Fixtures.facade0.memory)))) ∧
    (∃ st', StorageService.updateConfig 1000 Fixtures.neverFails Fixtures.k1
        Fixtures.v1 Fixtures.facade0 = .ok st' ∧
      st'.memory = MemoryStorage.updateConfig Fixtures.k1 Fixtures.v1
        Fixtures.facade0.memory ∧
      (Fixtures.facade0.useSupabase = false → st'.remote = Fixtures.facade0.remote ∧
        st'.syncBucket StorageService.SyncType.config = []) ∧
      (Fixtures.facade0.useSupabase = true →
        (st'.syncBucket StorageService.SyncType.config =
            [StorageService.SyncOp.saveConfigToSupabase Fixtures.k1 Fixtures.v1] ∧
         st'.remote = Fixtures.facade0.remote) ∨
        (st'.syncBucket StorageService.SyncType.config = [] ∧
         st'.remote =
           (if Fixtures.neverFails (StorageService.SyncOp.saveConfigToSupabase
               Fixtures.k1 Fixtures.v1) = true
            then Fixtures.facade0.remote
            else SupabaseService.updateConfig Fixtures.k1 Fixtures.v1
              Fixtures.facade0.remote)))) :=
  write_path_c1_amended 1000 Fixtures.neverFails Fixtures.tok1 Fixtures.price1
    Fixtures.k1 Fixtures.v1 Fixtures.facade0 (by decide) (by decide) (by decide)
    rfl rfl rfl rfl rfl

/-- Conservation of synchronization operations: along any interleaving of
enqueues and flush phases, every operation enqueued for a bucket is either
already handed to execution (applied log), snapshotted by the in-flight
flush, or still buffered — concatenating the three gives exactly the
original buffer followed by every enqueued operation, in order.  The
invariant that the snapshot is empty whenever the lock is free is carried
along. -/
theorem runEvents_conservation (opF : StorageService.SyncOp → Bool)
    (t : StorageService.SyncType) (tr : List StorageService.SyncEvent) :
    ∀ (st : StorageService.FacadeState),
    (st.syncLock t = false → st.syncSnapshot t = []) →
    (((StorageService.runEvents opF st tr).syncLock t = false →
       (StorageService.runEvents opF st tr).syncSnapshot t = []) ∧
     (StorageService.runEvents opF st tr).syncApplied t ++
       (StorageService.runEvents opF st tr).syncSnapshot t ++
       (StorageService.runEvents opF st tr).syncBucket t =
     st.syncApplied t ++ st.syncSnapshot t ++ st.syncBucket t ++
       StorageService.enqueuedOps t tr) := by
  induction tr with
  | nil =>
    intro st h
    exact ⟨h, by simp [StorageService.runEvents, StorageService.enqueuedOps]⟩
  | cons ev tr ih =>
    intro st h
    have hstep : StorageService.runEvents opF st (ev :: tr) =
        StorageService.runEvents opF (StorageService.stepEvent opF st ev) tr := rfl
    rw [hstep]
    cases ev with
    | enqueue u op =>
      have hgood : ((StorageService.stepEvent opF st (.enqueue u op)).syncLock t = false →
          (StorageService.stepEvent opF st (.enqueue u op)).syncSnapshot t = []) := h
      have hrec := ih _ hgood
      refine ⟨hrec.1, ?_⟩
      rw [hrec.2]
      by_cases hu : t = u
      · subst hu
        simp [StorageService.stepEvent, StorageService.enqueuedOps]
      · simp [StorageService.stepEvent, StorageService.enqueuedOps, hu,
              Ne.symm hu]
    | flushBegin n u =>
      by_cases hlocked : st.syncLock u = true
      · have hid : StorageService.stepEvent opF st (.flushBegin n u) = st := by
          simp [StorageService.stepEvent, StorageService.flushBeginStep, hlocked]
        rw [hid]
        have hrec := ih st h
        exact ⟨hrec.1, by rw [hrec.2]; simp [StorageService.enqueuedOps]⟩
      · have hlf : st.syncLock u = false := by
          revert hlocked; cases st.syncLock u <;> simp
        have hgood : ((StorageService.stepEvent opF st (.flushBegin n u)).syncLock t = false →
            (StorageService.stepEvent opF st (.flushBegin n u)).syncSnapshot t = []) := by
          intro hl
          by_cases hu : t = u
          · subst hu
            simp [StorageService.stepEvent, StorageService.flushBeginStep, hlf] at hl
          · simpa [StorageService.stepEvent, StorageService.flushBeginStep, hlf, hu]
              using h (by simpa [StorageService.stepEvent,
                StorageService.flushBeginStep, hlf, hu] using hl)
        have hrec := ih _ hgood
        refine ⟨hrec.1, ?_⟩
        rw [hrec.2]
        by_cases hu : t = u
        · subst hu
          have hsnap : st.syncSnapshot t = [] := h hlf
          simp [StorageService.stepEvent, StorageService.flushBeginStep, hlf,
                hsnap, StorageService.enqueuedOps]
        · simp [StorageService.stepEvent, StorageService.flushBeginStep, hlf, hu,
                StorageService.enqueuedOps]
    | flushEnd n u =>
      by_cases hlocked : st.syncLock u = true
      · have hgood : ((StorageService.stepEvent opF st (.flushEnd n u)).syncLock t = false →
            (StorageService.stepEvent opF st (.flushEnd n u)).syncSnapshot t = []) := by
          intro hl
          by_cases hu : t = u
          · subst hu
            simp [StorageService.stepEvent, StorageService.flushEndStep, hlocked]
          · have hlt : st.syncLock t = false := by
              simpa [StorageService.stepEvent, StorageService.flushEndStep, hlocked,
                     hu, (runSyncOps_preserve n opF u (st.syncSnapshot u) st).1]
                using hl
            simpa [StorageService.stepEvent, StorageService.flushEndStep, hlocked,
                   hu, (runSyncOps_preserve n opF u (st.syncSnapshot u) st).2.2.1]
              using h hlt
        have hrec := ih _ hgood
        refine ⟨hrec.1, ?_⟩
        rw [hrec.2]
        by_cases hu : t = u
        · subst hu
          simp [StorageService.stepEvent, StorageService.flushEndStep, hlocked,
                runSyncOps_syncApplied,
                (runSyncOps_preserve n opF t (st.syncSnapshot t) st).2.1,
                StorageService.enqueuedOps]
        · simp [StorageService.stepEvent, StorageService.flushEndStep, hlocked, hu,
                runSyncOps_syncApplied,
                (runSyncOps_preserve n opF u (st.syncSnapshot u) st).2.1,
                (runSyncOps_preserve n opF u (st.syncSnapshot u) st).2.2.1,
                StorageService.enqueuedOps]
      · have hid : StorageService.stepEvent opF st (.flushEnd n u) = st := by
          simp [StorageService.stepEvent, StorageService.flushEndStep, hlocked]
        rw [hid]
        have hrec := ih st h
        exact ⟨hrec.1, by rw [hrec.2]; simp [StorageService.enqueuedOps]⟩

/-- C9: a flush requested while the per-type lock is already held is a
complete no-op (the whole state, in particular the bucket, is untouched);
and along any interleaving of enqueues and flush phases every operation
enqueued for a bucket is conserved — it is either already handed to
execution, inside the in-flight snapshot, or still buffered, so operations
enqueued while a flush is in progress are picked up by a later flush and
none is silently lost. -/
theorem sync_flush_noop_conservation_c9 :
    (∀ (now : Int) (t : StorageService.SyncType) (st : StorageService.FacadeState),
      st.syncLock t = true → StorageService.flushBeginStep now t st = st) ∧
    (∀ (opF : StorageService.SyncOp → Bool) (t : StorageService.SyncType)
       (tr : List StorageService.SyncEvent) (st : StorageService.FacadeState),
      (st.syncLock t = false → st.syncSnapshot t = []) →
      (StorageService.runEvents opF st tr).syncApplied t ++
        (StorageService.runEvents opF st tr).syncSnapshot t ++
        (StorageService.runEvents opF st tr).syncBucket t =
      st.syncApplied t ++ st.syncSnapshot t ++ st.syncBucket t ++
        StorageService.enqueuedOps t tr) := by
  constructor
  · intro now t st h
    simp [StorageService.flushBeginStep, h]
  · intro opF t tr st h
    exact (runEvents_conservation opF t tr st h).2

/-- Witness for sync_flush_noop_conservation_c9: a flush request against the
held price lock changes nothing, and along the scenario trace (enqueue A,
flush begins, enqueue B under the in-progress flush, flush ends, second
flush) both A and B end up handed to execution, in order. -/
theorem sync_flush_noop_conservation_c9_witness :
    StorageService.flushBeginStep 0 StorageService.SyncType.price
      Fixtures.facadeLockedPrice = Fixtures.facadeLockedPrice ∧
    (StorageService.runEvents Fixtures.neverFails Fixtures.facade0
        Fixtures.trace1).syncApplied StorageService.SyncType.price ++
      (StorageService.runEvents Fixtures.neverFails Fixtures.facade0
        Fixtures.trace1).syncSnapshot StorageService.SyncType.price ++
      (StorageService.runEvents Fixtures.neverFails Fixtures.facade0
        Fixtures.trace1).syncBucket StorageService.SyncType.price =
    Fixtures.facade0.syncApplied StorageService.SyncType.price ++
      Fixtures.facade0.syncSnapshot StorageService.SyncType.price ++
      Fixtures.facade0.syncBucket StorageService.SyncType.price ++
      StorageService.enqueuedOps StorageService.SyncType.price Fixtures.trace1 :=
  ⟨sync_flush_noop_conservation_c9.1 0 StorageService.SyncType.price
      Fixtures.facadeLockedPrice rfl,
   sync_flush_noop_conservation_c9.2 Fixtures.neverFails
      StorageService.SyncType.price Fixtures.trace1 Fixtures.facade0
      (fun _ => rfl)⟩

/-- A drain loop over an empty queue returns the state unchanged. -/
theorem processLoop_nilQueue {α : Type} (hF : PriceQueue.QItem α → Option String)
    (tO : Nat → Bool) (now : Int) (fuel iter : Nat)
    (st : PriceQueue.QueueState α) (h : st.queue = []) :
    PriceQueue.processLoop hF tO now fuel iter st = st := by
  cases fuel <;> simp [PriceQueue.processLoop, h]

/-- One drain iteration under the global timeout: the item is left in
place and the timeout counter is bumped. -/
theorem processLoop_cons_timeout {α : Type}
    (hF : PriceQueue.QItem α → Option String) (tO : Nat → Bool) (now : Int)
    (fuel iter : Nat) (st : PriceQueue.QueueState α)
    (item : PriceQueue.QItem α) (rest : List (PriceQueue.QItem α))
    (h : st.queue = item :: rest) (ht : tO iter = true) :
    PriceQueue.processLoop hF tO now (fuel + 1) iter st =
      { st with stats := { st.stats with timeouts := st.stats.timeouts + 1 } } := by
  simp [PriceQueue.processLoop, h, ht]

/-- One drain iteration with every handler fulfilled. -/
theorem processLoop_cons_ok {α : Type}
    (hF : PriceQueue.QItem α → Option String) (tO : Nat → Bool) (now : Int)
    (fuel iter : Nat) (st : PriceQueue.QueueState α)
    (item : PriceQueue.QItem α) (rest : List (PriceQueue.QItem α))
    (h : st.queue = item :: rest) (ht : tO iter = false) (hfi : hF item = none) :
    PriceQueue.processLoop hF tO now (fuel + 1) iter st =
      PriceQueue.processLoop hF tO now fuel (iter + 1)
        { st with
          queue := rest
          stats := { st.stats with processed := st.stats.processed + 1 } } := by
  simp [PriceQueue.processLoop, h, ht, hfi]

/-- One drain iteration with a failing (or timed-out) handler. -/
theorem processLoop_cons_fail {α : Type}
    (hF : PriceQueue.QItem α → Option String) (tO : Nat → Bool) (now : Int)
    (fuel iter : Nat) (st : PriceQueue.QueueState α)
    (item : PriceQueue.QItem α) (rest : List (PriceQueue.QItem α)) (err : String)
    (h : st.queue = item :: rest) (ht : tO iter = false) (hfi : hF item = some err) :
    PriceQueue.processLoop hF tO now (fuel + 1) iter st =
      PriceQueue.processLoop hF tO now fuel (iter + 1)
        (PriceQueue.handleFailedItem now item err { st with queue := rest }) := by
  simp [PriceQueue.processLoop, h, ht, hfi]

/-- Core of the retry analysis: a single item whose retry budget has k
steps left, processed by handlers that always fail and never hitting the
global timeout, is re-queued k times and then lands in the failure log
with its retry counter at the budget, the terminal error and the failure
timestamp; the drain empties the queue, counts k retries and k + 1
failures, and the in-progress flag is untouched by the loop itself. -/
theorem drain_always_fail {α : Type} (e : String) (tO : Nat → Bool)
    (hT : ∀ n, tO n = false) (now : Int) :
    ∀ (k fuel iter : Nat) (st : PriceQueue.QueueState α)
      (item : PriceQueue.QItem α),
    st.queue = [item] → item.retries + k = st.maxRetries → k + 2 ≤ fuel →
    ((PriceQueue.processLoop (fun _ => some e) tO now fuel iter st).queue = [] ∧
     (PriceQueue.processLoop (fun _ => some e) tO now fuel iter st).failedItems
         item.id =
       some { item := { item with
                        retries := st.maxRetries
                        lastError := if 0 < k then some e else item.lastError }
              finalError := e
              failedAt := now } ∧
     (PriceQueue.processLoop (fun _ => some e) tO now fuel iter st).stats.retried =
       st.stats.retried + k ∧
     (PriceQueue.processLoop (fun _ => some e) tO now fuel iter st).stats.failed =
       st.stats.failed + (k + 1) ∧
     (PriceQueue.processLoop (fun _ => some e) tO now fuel iter st).processing =
       st.processing) := by
  intro k
  induction k with
  | zero =>
    intro fuel iter st item hq hr hfuel
    obtain ⟨f1, rfl⟩ : ∃ f1, fuel = f1 + 1 := ⟨fuel - 1, by omega⟩
    have hnlt : ¬ item.retries < st.maxRetries := by omega
    have hstep := processLoop_cons_fail (fun _ => some e) tO now f1 iter st item
      [] e hq (hT iter) rfl
    have hst2 : PriceQueue.handleFailedItem now item e { st with queue := [] } =
        { st with
          queue := []
          stats := { st.stats with failed := st.stats.failed + 1 }
          failedItems := fun i =>
            if i = item.id then
              some { item := item, finalError := e, failedAt := now }
            else st.failedItems i } := by
      simp [PriceQueue.handleFailedItem, hnlt]
    rw [hstep, hst2, processLoop_nilQueue _ _ _ _ _ _ rfl]
    have hmax : st.maxRetries = item.retries := by omega
    refine ⟨rfl, ?_, by simp, by simp, rfl⟩
    simp [hmax]
  | succ k ih =>
    intro fuel iter st item hq hr hfuel
    obtain ⟨f1, rfl⟩ : ∃ f1, fuel = f1 + 1 := ⟨fuel - 1, by omega⟩
    have hlt : item.retries < st.maxRetries := by omega
    have hstep := processLoop_cons_fail (fun _ => some e) tO now f1 iter st item
      [] e hq (hT iter) rfl
    have hst2 : PriceQueue.handleFailedItem now item e { st with queue := [] } =
        { st with
          queue := [{ item with retries := item.retries + 1, lastError := some e }]
          stats := { st.stats with
                     failed := st.stats.failed + 1
                     retried := st.stats.retried + 1 } } := by
      simp [PriceQueue.handleFailedItem, hlt]
    rw [hstep, hst2]
    have hrec := ih f1 (iter + 1)
      { st with
        queue := [{ item with retries := item.retries + 1, lastError := some e }]
        stats := { st.stats with
                   failed := st.stats.failed + 1
                   retried := st.stats.retried + 1 } }
      { item with retries := item.retries + 1, lastError := some e }
      rfl (by simp; omega) (by omega)
    refine ⟨hrec.1, ?_, ?_, ?_, hrec.2.2.2.2⟩
    · have h2 := hrec.2.1
      simp only [ite_self] at h2
      rw [if_pos (Nat.succ_pos k)]
      exact h2
    · rw [hrec.2.2.1]
      simp
      omega
    · rw [hrec.2.2.2.1]
      simp
      omega

/-- Under any handler outcomes and timeouts, the retry counter of every
item still in the queue after a drain stays within the starting retry
budget. -/
theorem processLoop_retry_bound {α : Type}
    (hF : PriceQueue.QItem α → Option String) (tO : Nat → Bool) (now : Int) :
    ∀ (fuel iter : Nat) (st : PriceQueue.QueueState α),
    (∀ i ∈ st.queue, i.retries ≤ st.maxRetries) →
    ∀ i ∈ (PriceQueue.processLoop hF tO now fuel iter st).queue,
      i.retries ≤ st.maxRetries := by
  intro fuel
  induction fuel with
  | zero => intro iter st h; simpa [PriceQueue.processLoop] using h
  | succ fuel ih =>
    intro iter st h
    cases hq : st.queue with
    | nil =>
      rw [processLoop_nilQueue _ _ _ _ _ _ hq, hq]
      simp
    | cons item rest =>
      have hitem : item.retries ≤ st.maxRetries := h item (by rw [hq]; simp)
      have hrest : ∀ i ∈ rest, i.retries ≤ st.maxRetries := fun i hi =>
        h i (by rw [hq]; exact List.mem_cons_of_mem _ hi)
      cases ht : tO iter with
      | true =>
        rw [processLoop_cons_timeout hF tO now fuel iter st item rest hq ht]
        intro i hi
        exact h i hi
      | false =>
        cases hfi : hF item with
        | none =>
          rw [processLoop_cons_ok hF tO now fuel iter st item rest hq ht hfi]
          intro i hi
          have htmp := ih (iter + 1)
            { st with
              queue := rest
              stats := { st.stats with processed := st.stats.processed + 1 } }
            (by simpa using hrest) i hi
          exact htmp
        | some err =>
          rw [processLoop_cons_fail hF tO now fuel iter st item rest err hq ht hfi]
          by_cases hlt : item.retries < st.maxRetries
          · have hst2 : PriceQueue.handleFailedItem now item err
                { st with queue := rest } =
                { st with
                  queue := rest ++
                    [{ item with retries := item.retries + 1, lastError := some err }]
                  stats := { st.stats with
                             failed := st.stats.failed + 1
                             retried := st.stats.retried + 1 } } := by
              simp [PriceQueue.handleFailedItem, hlt]
            rw [hst2]
            intro i hi
            have htmp := ih (iter + 1)
              { st with
                queue := rest ++
                  [{ item with retries := item.retries + 1, lastError := some err }]
                stats := { st.stats with
                           failed := st.stats.failed + 1
                           retried := st.stats.retried + 1 } }
              (by
                intro j hj
                simp at hj
                rcases hj with hj | hj
                · simpa using hrest j hj
                · rw [hj]; simpa using hlt) i hi
            exact htmp
          · have hst2 : PriceQueue.handleFailedItem now item err
                { st with queue := rest } =
                { st with
                  queue := rest
                  stats := { st.stats with failed := st.stats.failed + 1 }
                  failedItems := fun i =>
                    if i = item.id then
                      some { item := item, finalError := err, failedAt := now }
                    else st.failedItems i } := by
              simp [PriceQueue.handleFailedItem, hlt]
            rw [hst2]
            intro i hi
            have htmp := ih (iter + 1)
              { st with
                queue := rest
                stats := { st.stats with failed := st.stats.failed + 1 }
                failedItems := fun i =>
                  if i = item.id then
                    some { item := item, finalError := err, failedAt := now }
                  else st.failedItems i }
              (by simpa using hrest) i hi
            exact htmp

/-- Under any handler outcomes and timeouts, every item in the queue after
a drain carries the id of an item that was in the queue before: the drain
never moves anything from the failure log back into the queue. -/
theorem processLoop_id_provenance {α : Type}
    (hF : PriceQueue.QItem α → Option String) (tO : Nat → Bool) (now : Int) :
    ∀ (fuel iter : Nat) (st : PriceQueue.QueueState α),
    ∀ i ∈ (PriceQueue.processLoop hF tO now fuel iter st).queue,
      i.id ∈ st.queue.map PriceQueue.QItem.id := by
  intro fuel
  induction fuel with
  | zero =>
    intro iter st i hi
    simp only [PriceQueue.processLoop] at hi
    exact List.mem_map_of_mem _ hi
  | succ fuel ih =>
    intro iter st i hi
    cases hq : st.queue with
    | nil =>
      rw [processLoop_nilQueue _ _ _ _ _ _ hq, hq] at hi
      simp at hi
    | cons item rest =>
      cases ht : tO iter with
      | true =>
        rw [processLoop_cons_timeout hF tO now fuel iter st item rest hq ht] at hi
        have hi2 : i ∈ item :: rest := by
          rw [← hq]
          exact hi
        exact List.mem_map_of_mem _ hi2
      | false =>
        cases hfi : hF item with
        | none =>
          rw [processLoop_cons_ok hF tO now fuel iter st item rest hq ht hfi] at hi
          have hsub := ih (iter + 1)
            { st with
              queue := rest
              stats := { st.stats with processed := st.stats.processed + 1 } }
            i hi
          simp at hsub
          simp [hsub]
        | some err =>
          rw [processLoop_cons_fail hF tO now fuel iter st item rest err hq ht hfi] at hi
          by_cases hlt : item.retries < st.maxRetries
          · have hst2 : PriceQueue.handleFailedItem now item err
                { st with queue := rest } =
                { st with
                  queue := rest ++
                    [{ item with retries := item.retries + 1, lastError := some err }]
                  stats := { st.stats with
                             failed := st.stats.failed + 1
                             retried := st.stats.retried + 1 } } := by
              simp [PriceQueue.handleFailedItem, hlt]
            rw [hst2] at hi
            have hsub := ih (iter + 1)
              { st with
                queue := rest ++
                  [{ item with retries := item.retries + 1, lastError := some err }]
                stats := { st.stats with
                           failed := st.stats.failed + 1
                           retried := st.stats.retried + 1 } }
              i hi
            simp at hsub
            rcases hsub with h1 | h1 <;> simp [h1]
          · have hst2 : PriceQueue.handleFailedItem now item err
                { st with queue := rest } =
                { st with
                  queue := rest
                  stats := { st.stats with failed := st.stats.failed + 1 }
                  failedItems := fun i =>
                    if i = item.id then
                      some { item := item, finalError := err, failedAt := now }
                    else st.failedItems i } := by
              simp [PriceQueue.handleFailedItem, hlt]
            rw [hst2] at hi
            have hsub := ih (iter + 1)
              { st with
                queue := rest
                stats := { st.stats with failed := st.stats.failed + 1 }
                failedItems := fun i =>
                  if i = item.id then
                    some { item := item, finalError := err, failedAt := now }
                  else st.failedItems i }
              i hi
            simp at hsub
            simp [hsub]

/-- C6: an item whose handlers always fail (or time out) is retried exactly
maxRetries times and then becomes terminal: a drain over it empties the
queue, moves it into the failure log keyed by its id with its retry counter
equal to maxRetries, the terminal error and the failure timestamp, and
counts exactly maxRetries retries; each retry is appended at the tail of
the queue with the retry counter incremented and does not touch the failure
log; under any handler outcomes the retry counter of queued items never
exceeds the budget; and nothing ever moves from the failure log back into
the active queue (queued ids always come from the previous queue). -/
theorem queue_retry_exhaustion_c6 {α : Type} (e : String) (tO : Nat → Bool)
    (hT : ∀ n, tO n = false) (now : Int) (fuel : Nat)
    (st : PriceQueue.QueueState α) (item : PriceQueue.QItem α)
    (hq : st.queue = [item]) (hr : item.retries = 0)
    (hp : st.processing = false) (hfuel : st.maxRetries + 2 ≤ fuel) :
    ((PriceQueue.processQueue (fun _ => some e) tO now fuel st).queue = [] ∧
     (PriceQueue.processQueue (fun _ => some e) tO now fuel st).failedItems
         item.id =
       some { item := { item with
                        retries := st.maxRetries
                        lastError := if 0 < st.maxRetries then some e
                                     else item.lastError }
              finalError := e
              failedAt := now } ∧
     (PriceQueue.processQueue (fun _ => some e) tO now fuel st).stats.retried =
       st.stats.retried + st.maxRetries) ∧
    (∀ (st2 : PriceQueue.QueueState α) (it : PriceQueue.QItem α),
      it.retries < st2.maxRetries →
      (PriceQueue.handleFailedItem now it e st2).queue =
        st2.queue ++ [{ it with retries := it.retries + 1, lastError := some e }] ∧
      (PriceQueue.handleFailedItem now it e st2).failedItems = st2.failedItems) ∧
    (∀ (hF : PriceQueue.QItem α → Option String) (tO2 : Nat → Bool)
       (fuel2 iter : Nat) (st2 : PriceQueue.QueueState α),
      (∀ i ∈ st2.queue, i.retries ≤ st2.maxRetries) →
      ∀ i ∈ (PriceQueue.processLoop hF tO2 now fuel2 iter st2).queue,
        i.retries ≤ st2.maxRetries) ∧
    (∀ (hF : PriceQueue.QItem α → Option String) (tO2 : Nat → Bool)
       (fuel2 iter : Nat) (st2 : PriceQueue.QueueState α),
      ∀ i ∈ (PriceQueue.processLoop hF tO2 now fuel2 iter st2).queue,
        i.id ∈ st2.queue.map PriceQueue.QItem.id) := by
  have hd := drain_always_fail e tO hT now st.maxRetries fuel 0
    { st with processing := true } item hq (by simp [hr]) hfuel
  have hpq : PriceQueue.processQueue (fun _ => some e) tO now fuel st =
      { (PriceQueue.processLoop (fun _ => some e) tO now fuel 0
          { st with processing := true }) with processing := false } := by
    simp [PriceQueue.processQueue, hp]
  refine ⟨⟨?_, ?_, ?_⟩, ?_, ?_, ?_⟩
  · rw [hpq]; exact hd.1
  · rw [hpq]; exact hd.2.1
  · rw [hpq]; exact hd.2.2.1
  · intro st2 it hlt
    constructor
    · simp [PriceQueue.handleFailedItem, hlt]
    · simp [PriceQueue.handleFailedItem, hlt]
  · intro hF tO2 fuel2 iter st2 hbound
    exact processLoop_retry_bound hF tO2 now fuel2 iter st2 hbound
  · intro hF tO2 fuel2 iter st2
    exact processLoop_id_provenance hF tO2 now fuel2 iter st2

/-- Witness for queue_retry_exhaustion_c6: the module queue instance
(maxRetries 3) holding one fresh item, drained with handlers that always
fail: the queue empties, the item lands in the failure log at retry count
3 with the terminal error, and exactly 3 retries are counted. -/
theorem queue_retry_exhaustion_c6_witness :
    (PriceQueue.processQueue (fun _ => some ("boom")) (fun _ => false) 99 5
        Fixtures.stOneQ).queue = [] ∧
    (PriceQueue.processQueue (fun _ => some ("boom")) (fun _ => false) 99 5
        Fixtures.stOneQ).failedItems Fixtures.item1.id =
      some { item := { Fixtures.item1 with
                       retries := Fixtures.stOneQ.maxRetries
                       lastError := if 0 < Fixtures.stOneQ.maxRetries
                                    then some ("boom")
                                    else Fixtures.item1.lastError }
             finalError := ("boom")
             failedAt := 99 } ∧
    (PriceQueue.processQueue (fun _ => some ("boom")) (fun _ => false) 99 5
        Fixtures.stOneQ).stats.retried =
      Fixtures.stOneQ.stats.retried + Fixtures.stOneQ.maxRetries :=
  (queue_retry_exhaustion_c6 ("boom") (fun _ => false) (fun _ => rfl) 99 5
    Fixtures.stOneQ Fixtures.item1 rfl rfl rfl (by decide)).1
